import Mathlib

/-!
Verification of the schema synthesis and validation engine of the `huma`
repository (`schema.go`, with the validator and registry modelled from the
specification where their source is not part of the excerpt).

The embedding is shallow and executable: Go's `reflect.Type` values become the
inductive `GoType`, struct tags become association lists of strings, the
`Schema` struct becomes the inductive `Schema` (recursive through `items`,
`additionalProperties` and `properties`), Go panics during schema construction
become `Except.error`, and the recursive functions carry an explicit fuel
parameter bounding recursion depth (every concrete Go type is a finite tree,
so sufficient fuel always exists; running out of fuel yields an error, never a
fabricated success).
-/

/-- A decoded JSON-like value, as handed to the validator by the HTTP adapter
layer (`map[string]any`, `[]any`, strings, numbers, booleans, null).
Numbers are rationals: exact for every value any claim touches. -/
inductive JSONValue where
  | null
  | boolV (b : Bool)
  | num (q : ℚ)
  | str (s : String)
  | arr (xs : List JSONValue)
  | obj (kvs : List (String × JSONValue))

/-- Rendering of a rational the way Go's `%v` renders the float64 tag values
that occur in precomputed messages: integral values print without a decimal
point. Non-integral values are rendered as `num/den` (a simplification of Go's
decimal float formatting; no claim depends on a non-integral rendering). -/
def showQ (q : ℚ) : String :=
  if q.den = 1 then toString q.num else toString q.num ++ "/" ++ toString q.den

/-- Rendering of a decoded value the way Go's `fmt.Sprintf "%v"` does for the
scalar cases; composite values are abbreviated (no claim depends on them). -/
def showValue : JSONValue → String
  | .null => "<nil>"
  | .boolV b => if b then "true" else "false"
  | .num q => showQ q
  | .str s => s
  | .arr _ => "[...]"
  | .obj _ => "map[...]"

mutual
/-- Shallow embedding of `reflect.Type` restricted to the kinds `schema.go`
dispatches on. The three identity-special-cased types (`time.Time`,
`url.URL`, `net.IP`) are their own constructors, mirroring the `t == xType`
identity comparisons in the source. -/
inductive GoType where
  | boolT
  | intT | int8T | int16T | int32T | int64T
  | uintT | uint8T | uint16T | uint32T | uint64T
  | float32T | float64T
  | stringT
  | slice (elem : GoType)
  | arrayT (length : Nat) (elem : GoType)
  | mapT (elem : GoType)
  | structT (name : String) (fields : List GoField)
  | ptr (t : GoType)
  | interfaceT
  | timeT | urlT | ipT
  | funcT
/-- A struct field: name, exported flag, anonymous (embedded) flag, type and
struct tag (an association list of tag key/value pairs). -/
inductive GoField where
  | mk (name : String) (exported : Bool) (anonymous : Bool) (typ : GoType)
       (tag : List (String × String))
end

def GoField.name : GoField → String
  | .mk n _ _ _ _ => n

def GoField.exported : GoField → Bool
  | .mk _ e _ _ _ => e

def GoField.anonymous : GoField → Bool
  | .mk _ _ a _ _ => a

def GoField.typ : GoField → GoType
  | .mk _ _ _ t _ => t

def GoField.tag : GoField → List (String × String)
  | .mk _ _ _ _ tg => tg

/-- `deref` from schema.go: strip all pointer indirections. -/
def deref : GoType → GoType
  | .ptr t => deref t
  | .boolT => .boolT
  | .intT => .intT
  | .int8T => .int8T
  | .int16T => .int16T
  | .int32T => .int32T
  | .int64T => .int64T
  | .uintT => .uintT
  | .uint8T => .uint8T
  | .uint16T => .uint16T
  | .uint32T => .uint32T
  | .uint64T => .uint64T
  | .float32T => .float32T
  | .float64T => .float64T
  | .stringT => .stringT
  | .slice e => .slice e
  | .arrayT n e => .arrayT n e
  | .mapT e => .mapT e
  | .structT n fs => .structT n fs
  | .interfaceT => .interfaceT
  | .timeT => .timeT
  | .urlT => .urlT
  | .ipT => .ipT
  | .funcT => .funcT

/-- `reflect.StructTag.Get`: the value for a tag key, `""` when absent. -/
def structTagGet : List (String × String) → String → String
  | [], _ => ""
  | (k, v) :: rest, key => if k = key then v else structTagGet rest key

/-- First-match association-list lookup (the shape of Go map reads the source
performs on `props`, `requiredMap` and `msgRequired`). -/
def lookupStr {α : Type} : List (String × α) → String → Option α
  | [], _ => none
  | (k, v) :: rest, key => if k = key then some v else lookupStr rest key

/-- Insert-or-replace for an association list: Go's `m[k] = v`. -/
def upsert : List (String × String) → String → String → List (String × String)
  | [], k, v => [(k, v)]
  | (k', v') :: rest, k, v =>
    if k' = k then (k, v) :: rest else (k', v') :: upsert rest k v

/-- Digits-only decimal reading used by the `strconv` models below. -/
def parseNatDigits (cs : List Char) : Option Nat :=
  if cs.isEmpty then none
  else if cs.all Char.isDigit then
    some (cs.foldl (fun acc c => acc * 10 + (c.toNat - '0'.toNat)) 0)
  else none

/-- Model of Go's `strconv.Atoi` (external standard library): an optional sign
followed by decimal digits. -/
def parseInt (s : String) : Option Int :=
  match s.data with
  | '-' :: rest => (parseNatDigits rest).map (fun n => -(n : Int))
  | '+' :: rest => (parseNatDigits rest).map (fun n => (n : Int))
  | l => (parseNatDigits l).map (fun n => (n : Int))

/-- Splitting on a single separator character, as Go's `strings.Split` does
for the one-character separators the source uses (structural, so that proofs
can evaluate it). -/
def splitOnCharAux (sep : Char) : List Char → List Char → List String
  | [], acc => [String.mk acc.reverse]
  | c :: rest, acc =>
    if c = sep then String.mk acc.reverse :: splitOnCharAux sep rest []
    else splitOnCharAux sep rest (c :: acc)

def splitOnChar (sep : Char) (s : String) : List String :=
  splitOnCharAux sep s.data []

def strPrefixOf : List Char → List Char → Bool
  | [], _ => true
  | _ :: _, [] => false
  | a :: as, b :: bs => a = b && strPrefixOf as bs

/-- Go's `strings.Contains` (external standard library). -/
def hasSubstr : List Char → List Char → Bool
  | [], needle => needle.isEmpty
  | c :: rest, needle =>
    strPrefixOf needle (c :: rest) || hasSubstr rest needle

/-- Model of Go's `strconv.ParseFloat` (external standard library) restricted
to plain decimal forms `[sign] digits [. digits]`; scientific notation and
special values are omitted (no claim depends on them). -/
def parseFloat (s : String) : Option ℚ :=
  let core : List Char → Option ℚ := fun cs =>
    match splitOnChar '.' (String.mk cs) with
    | [intPart] => (parseNatDigits intPart.data).map (fun n => (n : ℚ))
    | [intPart, fracPart] =>
      match parseNatDigits intPart.data, parseNatDigits fracPart.data with
      | some n, some f =>
        some ((n : ℚ) + (f : ℚ) / ((10 : ℚ) ^ fracPart.length))
      | _, _ => none
    | _ => none
  match s.data with
  | '-' :: rest => (core rest).map (fun q => -q)
  | '+' :: rest => core rest
  | l => core l

/-- Model of the validity check performed by Go's `regexp.MustCompile`
(external standard library), approximated syntactically: character classes and
groups must be balanced and no escape may dangle. The invalid pattern of the
repository's own test (`^[a-`) is rejected. -/
def regexpValidLoop : List Char → Bool → Nat → Bool
  | [], inClass, depth => !inClass && depth = 0
  | '\\' :: rest, inClass, depth =>
    match rest with
    | [] => false
    | _ :: rest' => regexpValidLoop rest' inClass depth
  | '[' :: rest, _, depth => regexpValidLoop rest true depth
  | ']' :: rest, _, depth =>
    regexpValidLoop rest false depth
  | '(' :: rest, inClass, depth =>
    if inClass then regexpValidLoop rest inClass depth
    else regexpValidLoop rest inClass (depth + 1)
  | ')' :: rest, inClass, depth =>
    if inClass then regexpValidLoop rest inClass depth
    else match depth with
      | 0 => false
      | d + 1 => regexpValidLoop rest inClass d
  | _ :: rest, inClass, depth => regexpValidLoop rest inClass depth

def regexpValid (s : String) : Bool :=
  regexpValidLoop s.data false 0

/-- Model of Go's `base64.StdEncoding.DecodeString` success condition
(external standard library): length a multiple of four, at most two trailing
padding characters, and every other character from the base64 alphabet. -/
def isBase64Char (c : Char) : Bool :=
  c.isAlpha || c.isDigit || c = '+' || c = '/'

def isBase64 (s : String) : Bool :=
  let cs := s.data
  let pad := (cs.reverse.takeWhile (fun c => c = '=')).length
  decide (cs.length % 4 = 0) && decide (pad ≤ 2) &&
    ((cs.take (cs.length - pad)).all isBase64Char)

/-- The non-recursive fields of the `Schema` struct from schema.go, keeping
the source field names. Constraint bounds use exact rationals for Go's
float64 tag values and Int for Go's int-valued bounds. The trailing fields
mirror the unexported derived/cached members (`patternRe` stores the pattern
it was compiled from, `requiredMap` the set of required names, plus the
precomputed message fields). -/
structure SchemaCore where
  type : String := ""
  title : String := ""
  description : String := ""
  ref : String := ""
  format : String := ""
  contentEncoding : String := ""
  defaultV : Option JSONValue := none
  examples : List JSONValue := []
  enum : List JSONValue := []
  minimum : Option ℚ := none
  exclusiveMinimum : Option ℚ := none
  maximum : Option ℚ := none
  exclusiveMaximum : Option ℚ := none
  multipleOf : Option ℚ := none
  minLength : Option Int := none
  maxLength : Option Int := none
  pattern : String := ""
  minItems : Option Int := none
  maxItems : Option Int := none
  uniqueItems : Bool := false
  required : List String := []
  minProperties : Option Int := none
  maxProperties : Option Int := none
  readOnly : Bool := false
  writeOnly : Bool := false
  deprecated : Bool := false
  patternRe : Option String := none
  requiredMap : List String := []
  propertyNames : List String := []
  msgEnum : String := ""
  msgMinimum : String := ""
  msgExclusiveMinimum : String := ""
  msgMaximum : String := ""
  msgExclusiveMaximum : String := ""
  msgMultipleOf : String := ""
  msgMinLength : String := ""
  msgMaxLength : String := ""
  msgPattern : String := ""
  msgMinItems : String := ""
  msgMaxItems : String := ""
  msgMinProperties : String := ""
  msgMaxProperties : String := ""
  msgRequired : List (String × String) := []

/-- The `Schema` struct: its non-recursive fields plus the three recursive
members `Items`, `AdditionalProperties` (`nil`, a boolean, or a child schema)
and `Properties` (insertion-ordered, as the source tracks order in
`propertyNames`). -/
inductive Schema where
  | mk (core : SchemaCore) (items : Option Schema)
       (additionalProperties : Option (Bool ⊕ Schema))
       (properties : List (String × Schema))

def Schema.core : Schema → SchemaCore
  | .mk c _ _ _ => c

def Schema.items : Schema → Option Schema
  | .mk _ i _ _ => i

def Schema.additionalProperties : Schema → Option (Bool ⊕ Schema)
  | .mk _ _ a _ => a

def Schema.properties : Schema → List (String × Schema)
  | .mk _ _ _ p => p

/-- The precomputed required-property message text. -/
def requiredMsg (name : String) : String :=
  "expected required property " ++ name ++ " to be present"

/-- `Schema.PrecomputeMessages` from schema.go. Each message field is
(re)computed from the corresponding constraint field when that constraint is
set and keeps its previous value otherwise; `patternRe` is compiled from
`pattern` (`regexp.MustCompile` panics — here: errors — on an invalid
pattern); `msgRequired` gains one entry per required property name. -/
def precomputeMessages (s : Schema) : Except String Schema :=
  let c := s.core
  if c.pattern ≠ "" ∧ ¬ regexpValid c.pattern then
    .error ("error parsing regexp: " ++ c.pattern)
  else
    .ok (Schema.mk
      { c with
        msgEnum := "expected value to be one of \"" ++
          String.intercalate ", " (c.enum.map showValue) ++ "\"",
        msgMinimum := match c.minimum with
          | some m => "expected number >= " ++ showQ m
          | none => c.msgMinimum,
        msgExclusiveMinimum := match c.exclusiveMinimum with
          | some m => "expected number > " ++ showQ m
          | none => c.msgExclusiveMinimum,
        msgMaximum := match c.maximum with
          | some m => "expected number <= " ++ showQ m
          | none => c.msgMaximum,
        msgExclusiveMaximum := match c.exclusiveMaximum with
          | some m => "expected number < " ++ showQ m
          | none => c.msgExclusiveMaximum,
        msgMultipleOf := match c.multipleOf with
          | some m => "expected number to be a multiple of " ++ showQ m
          | none => c.msgMultipleOf,
        msgMinLength := match c.minLength with
          | some m => "expected length >= " ++ toString m
          | none => c.msgMinLength,
        msgMaxLength := match c.maxLength with
          | some m => "expected length <= " ++ toString m
          | none => c.msgMaxLength,
        patternRe := if c.pattern ≠ "" then some c.pattern else c.patternRe,
        msgPattern := if c.pattern ≠ "" then
            "expected string to match pattern " ++ c.pattern
          else c.msgPattern,
        msgMinItems := match c.minItems with
          | some m => "expected array length >= " ++ toString m
          | none => c.msgMinItems,
        msgMaxItems := match c.maxItems with
          | some m => "expected array length <= " ++ toString m
          | none => c.msgMaxItems,
        msgMinProperties := match c.minProperties with
          | some m => "expected object with at least " ++ toString m ++
              " properties"
          | none => c.msgMinProperties,
        msgMaxProperties := match c.maxProperties with
          | some m => "expected object with at most " ++ toString m ++
              " properties"
          | none => c.msgMaxProperties,
        msgRequired := c.required.foldl
          (fun m n => upsert m n (requiredMsg n)) c.msgRequired }
      s.items s.additionalProperties s.properties)

/-- `boolTag` from schema.go: empty means false, otherwise the value must be
the literal `true` or `false`; anything else is a construction fault
(a Go panic, modelled as `Except.error`). -/
def boolTag (f : GoField) (tag : String) : Except String Bool :=
  let v := structTagGet f.tag tag
  if v = "" then .ok false
  else if v = "true" then .ok true
  else if v = "false" then .ok false
  else .error ("invalid bool tag '" ++ tag ++ "' for field '" ++ f.name ++
    "': " ++ v)

/-- `intTag` from schema.go: empty means unset, otherwise the value must parse
as a decimal integer; anything else is a construction fault. -/
def intTag (f : GoField) (tag : String) : Except String (Option Int) :=
  let v := structTagGet f.tag tag
  if v = "" then .ok none
  else match parseInt v with
    | some i => .ok (some i)
    | none => .error ("invalid int tag '" ++ tag ++ "' for field '" ++
        f.name ++ "': " ++ v ++ " (invalid syntax)")

/-- `floatTag` from schema.go: empty means unset, otherwise the value must
parse as a decimal number; anything else is a construction fault. -/
def floatTag (f : GoField) (tag : String) : Except String (Option ℚ) :=
  let v := structTagGet f.tag tag
  if v = "" then .ok none
  else match parseFloat v with
    | some q => .ok (some q)
    | none => .error ("invalid float tag '" ++ tag ++ "' for field '" ++
        f.name ++ "': " ++ v ++ " (invalid syntax)")

/-- Model of `encoding/json.Unmarshal` (external standard library) restricted
to the scalar literals the tag values of this repository use: `null`, `true`,
`false`, decimal numbers, and quoted strings without escapes. Composite
literals are not modelled (no claim depends on them). -/
def parseJSONLit (s : String) : Option JSONValue :=
  if s = "null" then some .null
  else if s = "true" then some (.boolV true)
  else if s = "false" then some (.boolV false)
  else match parseFloat s with
    | some q => some (.num q)
    | none =>
      match s.data with
      | '"' :: rest =>
        match rest.reverse with
        | '"' :: mid => some (.str (String.mk mid.reverse))
        | _ => none
      | _ => none

/-- The dynamic type name Go's error text prints for a decoded tag value. -/
def jsonValueTypeName : JSONValue → String
  | .null => "<nil>"
  | .boolV _ => "bool"
  | .num _ => "float64"
  | .str _ => "string"
  | .arr _ => "[]any"
  | .obj _ => "map[string]any"

/-- The short name of a Go type as printed in conversion error text. -/
def goTypeName : GoType → String
  | .boolT => "bool"
  | .intT => "int"
  | .int8T => "int8"
  | .int16T => "int16"
  | .int32T => "int32"
  | .int64T => "int64"
  | .uintT => "uint"
  | .uint8T => "uint8"
  | .uint16T => "uint16"
  | .uint32T => "uint32"
  | .uint64T => "uint64"
  | .float32T => "float32"
  | .float64T => "float64"
  | .stringT => "string"
  | .slice _ => "slice"
  | .arrayT _ _ => "array"
  | .mapT _ => "map"
  | .structT n _ => n
  | .ptr _ => "ptr"
  | .interfaceT => "interface"
  | .timeT => "time.Time"
  | .urlT => "url.URL"
  | .ipT => "net.IP"
  | .funcT => "func"

def isNumericKind : GoType → Bool
  | .intT | .int8T | .int16T | .int32T | .int64T
  | .uintT | .uint8T | .uint16T | .uint32T | .uint64T
  | .float32T | .float64T => true
  | _ => false

/-- Model of `reflect`'s `ConvertibleTo` plus `Convert` for the scalar decoded
values: a JSON number converts to any numeric Go type, a string to a string
or byte-slice type, a boolean only to a boolean type. -/
def convertValue (t : GoType) (v : JSONValue) : Option JSONValue :=
  match v with
  | .null => some .null
  | .num q => if isNumericKind t then some (.num q) else none
  | .str s =>
    match t with
    | .stringT => some (.str s)
    | .slice .uint8T => some (.str s)
    | _ => none
  | .boolV b =>
    match t with
    | .boolT => some (.boolV b)
    | _ => none
  | _ => none

/-- `jsonTagValue` from schema.go: a string-typed target takes the raw value;
a string-slice target with no leading bracket takes the comma-separated,
trimmed pieces; everything else is parsed as JSON and converted to the
target type, either failure being a construction fault. -/
def jsonTagValue (f : GoField) (t : GoType) (value : String) :
    Except String JSONValue :=
  if (match t with | .stringT => true | _ => false) then .ok (.str value)
  else if (match t with | .slice .stringT => true | _ => false) &&
      !(value.data.head? = some '[') then
    .ok (.arr (((splitOnChar ',' value).map String.trim).map JSONValue.str))
  else
    match parseJSONLit value with
    | none => .error ("invalid tag for field '" ++ f.name ++ "': invalid JSON")
    | some .null => .ok .null
    | some v =>
      match convertValue t v with
      | some v' => .ok v'
      | none => .error ("unable to convert " ++ jsonValueTypeName v ++
          " to " ++ goTypeName t ++ ": schema is invalid")

/-- `jsonTag` from schema.go: the typed value of a JSON-valued tag, or none
when the tag is absent. -/
def jsonTag (f : GoField) (name : String) : Except String (Option JSONValue) :=
  let value := structTagGet f.tag name
  if value = "" then .ok none
  else (jsonTagValue f f.typ value).map some

/-- `reflect.Type.Elem` for the kinds the source applies it to. -/
def elemOf : GoType → GoType
  | .slice e => e
  | .arrayT _ e => e
  | .mapT e => e
  | .ptr e => e
  | t => t

/-- `SchemaFromField` from schema.go, with the recursive registry call
abstracted as `recurse`: augments the field type's schema with the field's
declarative annotations in source order, finishing with
`PrecomputeMessages`. Any malformed annotation is a construction fault. -/
def schemaFromFieldAux (recurse : GoType → Except String (Option Schema))
    (f : GoField) : Except String (Option Schema) := do
  let fs? ← recurse f.typ
  match fs? with
  | none => pure none
  | some fs => do
    let d ← jsonTag f "default"
    let e ← jsonTag f "example"
    let enumTag := structTagGet f.tag "enum"
    let enumValues ←
      if enumTag = "" then pure []
      else
        let fType := if fs.core.type = "array" then elemOf f.typ else f.typ
        (splitOnChar ',' enumTag).mapM (jsonTagValue f fType)
    let mi ← floatTag f "minimum"
    let emi ← floatTag f "exclusiveMinimum"
    let ma ← floatTag f "maximum"
    let ema ← floatTag f "exclusiveMaximum"
    let mo ← floatTag f "multipleOf"
    let mnl ← intTag f "minLength"
    let mxl ← intTag f "maxLength"
    let mni ← intTag f "minItems"
    let mxi ← intTag f "maxItems"
    let u ← boolTag f "uniqueItems"
    let mnp ← intTag f "minProperties"
    let mxp ← intTag f "maxProperties"
    let ro ← boolTag f "readOnly"
    let wo ← boolTag f "writeOnly"
    let dep ← boolTag f "deprecated"
    let c := { fs.core with
      description := structTagGet f.tag "doc",
      format := if structTagGet f.tag "format" ≠ "" then
          structTagGet f.tag "format" else fs.core.format,
      contentEncoding := if structTagGet f.tag "encoding" ≠ "" then
          structTagGet f.tag "encoding" else fs.core.contentEncoding,
      defaultV := d,
      examples := match e with
        | some ev => [ev]
        | none => fs.core.examples,
      enum := if enumTag ≠ "" ∧ fs.core.type ≠ "array" then enumValues
        else fs.core.enum,
      minimum := mi, exclusiveMinimum := emi,
      maximum := ma, exclusiveMaximum := ema, multipleOf := mo,
      minLength := mnl, maxLength := mxl,
      pattern := structTagGet f.tag "pattern",
      minItems := mni, maxItems := mxi, uniqueItems := u,
      minProperties := mnp, maxProperties := mxp,
      readOnly := ro, writeOnly := wo, deprecated := dep }
    let newItems := if enumTag ≠ "" ∧ fs.core.type = "array" then
        fs.items.map (fun it => Schema.mk
          { it.core with enum := enumValues }
          it.items it.additionalProperties it.properties)
      else fs.items
    let out ← precomputeMessages
      (Schema.mk c newItems fs.additionalProperties fs.properties)
    pure (some out)

/-- A field together with its direct parent (`fieldInfo` from schema.go; the
parent is only used for registry name hints, which the registry model
omits). -/
structure FieldInfo where
  parent : String
  field : GoField

/-- One pass of the first loop of `getFields`: unexported fields are skipped,
anonymous (embedded) fields are set aside, named fields are kept in order. -/
def splitFields : List GoField → List GoField × List GoField
  | [] => ([], [])
  | f :: rest =>
    let (ds, es) := splitFields rest
    if !f.exported then (ds, es)
    else if f.anonymous then (ds, f :: es)
    else (f :: ds, es)

/-- `getFields` from schema.go: breadth-first field collection — all direct
named exported fields first, then the recursive expansion of each embedded
struct (through any pointer indirections). -/
def getFields : Nat → String → List GoField → List FieldInfo
  | 0, _, _ => []
  | fuel + 1, nm, fs =>
    let (directs, embedded) := splitFields fs
    directs.map (fun f => FieldInfo.mk nm f) ++
      embedded.flatMap (fun f =>
        match deref f.typ with
        | .structT nm2 gs => getFields fuel nm2 gs
        | _ => [])

/-- The serialized name of a field: the first comma-piece of the `json` tag
when present, else the Go field name. -/
def serializedName (f : GoField) : String :=
  let j := structTagGet f.tag "json"
  if j = "" then f.name else (splitOnChar ',' j).headD ""

/-- Whether the `json` tag mentions `omitempty` (the field is then optional). -/
def omitEmpty (f : GoField) : Bool :=
  let j := structTagGet f.tag "json"
  if j = "" then false else hasSubstr j.data "omitempty".data

/-- The loop state of the struct case of `SchemaFromType`: `props`,
`propNames`, `required`, `requiredMap` built side by side. -/
structure PropState where
  props : List (String × Schema)
  propNames : List String
  required : List String
  requiredMap : List String

/-- The property-collection loop of the struct case of `SchemaFromType`:
fields named `-` are ignored, a name already present in `props` is skipped
(an ancestor field was overridden), a nil field schema contributes nothing,
and otherwise the property is appended — to `required` too unless marked
`omitempty`. -/
def collectProps (fieldSchema : GoField → Except String (Option Schema)) :
    List FieldInfo → PropState → Except String PropState
  | [], st => .ok st
  | info :: rest, st =>
    let f := info.field
    let name := serializedName f
    if name = "-" then collectProps fieldSchema rest st
    else if (lookupStr st.props name).isSome then
      collectProps fieldSchema rest st
    else do
      let fs? ← fieldSchema f
      match fs? with
      | none => collectProps fieldSchema rest st
      | some fs =>
        let om := omitEmpty f
        collectProps fieldSchema rest
          { props := st.props ++ [(name, fs)],
            propNames := st.propNames ++ [name],
            required := if om then st.required else st.required ++ [name],
            requiredMap :=
              if om then st.requiredMap else st.requiredMap ++ [name] }

/-- Go's `math/bits.UintSize` on the 64-bit platforms the repository targets. -/
def uintSize : Nat := 64

/-- The width-derived format `SchemaFromType` computes for the
unspecified-width `int` and `uint` kinds. -/
def nativeIntFormat : String := if uintSize = 32 then "int32" else "int64"

def isUint8Kind : GoType → Bool
  | .uint8T => true
  | _ => false

/-- The body of `SchemaFromType` from schema.go, applied to an
already-dereferenced type; the recursive registry consultation for nested
types is abstracted as `recurse`, the field collection as `getF`. -/
def schemaFromTypeDerefed (recurse : GoType → Except String (Option Schema))
    (getF : String → List GoField → List FieldInfo) (t : GoType) :
    Except String (Option Schema) :=
  match t with
  | .ipT => .ok (some (Schema.mk { type := "string", format := "ipv4" }
      none none []))
  | .boolT => .ok (some (Schema.mk { type := "boolean" } none none []))
  | .intT => .ok (some (Schema.mk
      { type := "integer", format := nativeIntFormat } none none []))
  | .int8T => .ok (some (Schema.mk
      { type := "integer", format := "int32" } none none []))
  | .int16T => .ok (some (Schema.mk
      { type := "integer", format := "int32" } none none []))
  | .int32T => .ok (some (Schema.mk
      { type := "integer", format := "int32" } none none []))
  | .int64T => .ok (some (Schema.mk
      { type := "integer", format := "int64" } none none []))
  | .uintT => .ok (some (Schema.mk
      { type := "integer", format := nativeIntFormat, minimum := some 0 }
      none none []))
  | .uint8T => .ok (some (Schema.mk
      { type := "integer", format := "int32", minimum := some 0 }
      none none []))
  | .uint16T => .ok (some (Schema.mk
      { type := "integer", format := "int32", minimum := some 0 }
      none none []))
  | .uint32T => .ok (some (Schema.mk
      { type := "integer", format := "int32", minimum := some 0 }
      none none []))
  | .uint64T => .ok (some (Schema.mk
      { type := "integer", format := "int64", minimum := some 0 }
      none none []))
  | .float32T => .ok (some (Schema.mk
      { type := "number", format := "float" } none none []))
  | .float64T => .ok (some (Schema.mk
      { type := "number", format := "double" } none none []))
  | .stringT => .ok (some (Schema.mk { type := "string" } none none []))
  | .slice e =>
    if isUint8Kind e then
      .ok (some (Schema.mk { type := "string", contentEncoding := "base64" }
        none none []))
    else do
      let item ← recurse e
      pure (some (Schema.mk { type := "array" } item none []))
  | .arrayT n e =>
    if isUint8Kind e then
      .ok (some (Schema.mk { type := "string", contentEncoding := "base64" }
        none none []))
    else do
      let item ← recurse e
      pure (some (Schema.mk
        { type := "array", minItems := some (n : Int),
          maxItems := some (n : Int) } item none []))
  | .mapT e => do
      let vs ← recurse e
      pure (some (Schema.mk { type := "object" } none
        (vs.map (fun sch => Sum.inr sch)) []))
  | .timeT => .ok (some (Schema.mk { type := "string", format := "date-time" }
      none none []))
  | .urlT => .ok (some (Schema.mk { type := "string", format := "uri" }
      none none []))
  | .structT nm fs => do
      let st ← collectProps (schemaFromFieldAux recurse) (getF nm fs)
        (PropState.mk [] [] [] [])
      let s0 ← precomputeMessages (Schema.mk
        { type := "object", required := st.required,
          requiredMap := st.requiredMap, propertyNames := st.propNames }
        none (some (Sum.inl false)) st.props)
      pure (some s0)
  | .interfaceT => .ok (some (Schema.mk {} none none []))
  | .funcT => .ok none
  | .ptr _ => .ok none

/-- `SchemaFromType` from schema.go: dereference, then dispatch on the kind;
fuel bounds the recursion into nested types (exhaustion is an error, never a
fabricated schema). -/
def schemaFromType : Nat → GoType → Except String (Option Schema)
  | 0, _ => .error "schema recursion limit exceeded"
  | fuel + 1, t0 =>
    schemaFromTypeDerefed (fun u => schemaFromType fuel u)
      (getFields (fuel + 1)) (deref t0)

/-- Modelled from the spec: `Registry.Schema(type, allowRef, hint)`
(registry source not in the excerpt). The spec's invariant says the registry
caches and returns exactly the synthesized schema for a type; caching, stable
naming and reference-only indirection are omitted, so the registry is the
synthesizer itself. -/
def registrySchema (fuel : Nat) (t : GoType) : Except String (Option Schema) :=
  schemaFromType fuel t

/-- `SchemaFromField` at a given recursion budget. -/
def schemaFromField (fuel : Nat) (f : GoField) : Except String (Option Schema) :=
  schemaFromFieldAux (fun u => schemaFromType fuel u) f

/-- Modelled from the spec: the validation mode enumeration (the validator's
source is not in the excerpt). `ModeWriteToServer` is client-to-server
request validation, `ModeReadFromServer` is server-to-client response
validation. -/
inductive ValidateMode where
  | ModeWriteToServer
  | ModeReadFromServer
deriving DecidableEq

/-- Modelled from the spec: Go's zero value for each decoded value kind,
used by the server-to-client write-only check ("writeOnly fields, if present
with a non-zero value, are a violation"). -/
def isZero : JSONValue → Bool
  | .null => true
  | .boolV b => !b
  | .num q => decide (q = 0)
  | .str s => decide (s = "")
  | .arr xs => xs.isEmpty
  | .obj kvs => kvs.isEmpty

/-- Modelled from the spec: the recursive validator
`Validate(registry, s, pb, mode, v, res)` (validate.go is not in the
excerpt). Violation messages are returned as an ordered list; the PathBuffer
locations are omitted since every claim concerns messages. A type mismatch
yields the generic "expected TYPE" message and stops checks for that node; a
whole-number float is acceptable for an integer schema; numeric bounds
compare directly; string length is logical characters, base64 content
encoding is checked by attempting a decode; objects reject undeclared keys
when additionalProperties is false, recursively validate declared and
additional properties, flag present non-zero write-only values in
server-to-client mode, and report mode-adjusted missing required properties
with the precomputed message (readOnly not required client-to-server,
writeOnly not required server-to-client). Pattern matching, string format
dispatch and uniqueItems canonicalization are omitted — no claim touches
them. Fuel exhaustion yields a sentinel violation, never a fabricated
pass. -/
def Validate : Nat → Schema → ValidateMode → JSONValue → List String
  | 0, _, _, _ => ["validator recursion limit exceeded"]
  | fuel + 1, s, mode, v =>
    if s.core.type = "boolean" then
      match v with
      | .boolV _ => []
      | _ => ["expected boolean"]
    else if s.core.type = "integer" ∨ s.core.type = "number" then
      match v with
      | .num q =>
        if s.core.type = "integer" ∧ q.den ≠ 1 then ["expected integer"]
        else
          (match s.core.minimum with
            | some m => if q < m then [s.core.msgMinimum] else []
            | none => []) ++
          (match s.core.exclusiveMinimum with
            | some m => if q ≤ m then [s.core.msgExclusiveMinimum] else []
            | none => []) ++
          (match s.core.maximum with
            | some m => if m < q then [s.core.msgMaximum] else []
            | none => []) ++
          (match s.core.exclusiveMaximum with
            | some m => if m ≤ q then [s.core.msgExclusiveMaximum] else []
            | none => []) ++
          (match s.core.multipleOf with
            | some m =>
              if m = 0 then []
              else if (q / m).den = 1 then [] else [s.core.msgMultipleOf]
            | none => [])
      | _ => ["expected number"]
    else if s.core.type = "string" then
      match v with
      | .str str =>
        (match s.core.minLength with
          | some m => if (str.length : Int) < m then [s.core.msgMinLength]
              else []
          | none => []) ++
        (match s.core.maxLength with
          | some m => if m < (str.length : Int) then [s.core.msgMaxLength]
              else []
          | none => []) ++
        (if s.core.contentEncoding = "base64" ∧ ¬ isBase64 str then
          ["expected string to be base64 encoded"] else [])
      | _ => ["expected string"]
    else if s.core.type = "array" then
      match v with
      | .arr xs =>
        (match s.core.minItems with
          | some m => if (xs.length : Int) < m then [s.core.msgMinItems]
              else []
          | none => []) ++
        (match s.core.maxItems with
          | some m => if m < (xs.length : Int) then [s.core.msgMaxItems]
              else []
          | none => []) ++
        (match s.items with
          | some it => xs.flatMap (fun x => Validate fuel it mode x)
          | none => [])
      | _ => ["expected array"]
    else if s.core.type = "object" then
      match v with
      | .obj kvs =>
        (match s.core.minProperties with
          | some m => if (kvs.length : Int) < m then [s.core.msgMinProperties]
              else []
          | none => []) ++
        (match s.core.maxProperties with
          | some m => if m < (kvs.length : Int) then [s.core.msgMaxProperties]
              else []
          | none => []) ++
        kvs.flatMap (fun kv =>
          match lookupStr s.properties kv.1 with
          | some ps =>
            (if decide (mode = .ModeReadFromServer) && ps.core.writeOnly &&
                !(isZero kv.2) then
              ["write only property is non-zero"] else []) ++
            Validate fuel ps mode kv.2
          | none =>
            match s.additionalProperties with
            | some (Sum.inl false) => ["unexpected property"]
            | some (Sum.inr as) => Validate fuel as mode kv.2
            | _ => []) ++
        s.core.required.flatMap (fun n =>
          if (lookupStr kvs n).isSome then []
          else
            let skip : Bool := match lookupStr s.properties n with
              | some ps =>
                (ps.core.readOnly && decide (mode = .ModeWriteToServer)) ||
                (ps.core.writeOnly && decide (mode = .ModeReadFromServer))
              | none => false
            if skip then [] else [(lookupStr s.core.msgRequired n).getD ""])
      | _ => ["expected object"]
    else []

/-- Iterated pointer wrapping `*...*T`. -/
def ptrWrap : Nat → GoType → GoType
  | 0, t => t
  | k + 1, t => .ptr (ptrWrap k t)

/-- The schema `SchemaFromType` synthesizes for a byte sequence. -/
def base64Schema : Schema :=
  Schema.mk { type := "string", contentEncoding := "base64" } none none []

/-- A string property schema flagged read-only. -/
def roPropSchema : Schema :=
  Schema.mk { type := "string", readOnly := true } none none []

/-- A string property schema flagged write-only. -/
def woPropSchema : Schema :=
  Schema.mk { type := "string", writeOnly := true } none none []

/-- An object schema with a single required property carrying the given
property schema, finalized (its required-message table precomputed). -/
def oneFieldObjSchema (name : String) (p : Schema) : Schema :=
  Schema.mk
    { type := "object", required := [name], requiredMap := [name],
      propertyNames := [name], msgRequired := [(name, requiredMsg name)] }
    none (some (Sum.inl false)) [(name, p)]

/-- The specification's statement of property override, written from the
spec's words for comparison with `collectProps`: scanning the resolved
fields in order, the first field whose serialized name is the given one and
whose field schema is non-nil provides the property's schema; every later
same-named field is discarded. -/
def firstWin (fieldSchema : GoField → Except String (Option Schema))
    (name : String) : List FieldInfo → Option Schema
  | [] => none
  | info :: rest =>
    if serializedName info.field = name then
      match fieldSchema info.field with
      | .ok (some s) => some s
      | _ => firstWin fieldSchema name rest
    else firstWin fieldSchema name rest

theorem except_bind_ok {α β : Type} (a : α)
    (k : α → Except String β) : (Except.ok a >>= k) = k a := rfl

theorem except_bind_error {α β : Type} (e : String)
    (k : α → Except String β) :
    ((Except.error e : Except String α) >>= k) = Except.error e := rfl

theorem deref_deref : ∀ t : GoType, deref (deref t) = deref t
  | .ptr t => by
    show deref (deref t) = deref t
    exact deref_deref t
  | .boolT => rfl
  | .intT => rfl
  | .int8T => rfl
  | .int16T => rfl
  | .int32T => rfl
  | .int64T => rfl
  | .uintT => rfl
  | .uint8T => rfl
  | .uint16T => rfl
  | .uint32T => rfl
  | .uint64T => rfl
  | .float32T => rfl
  | .float64T => rfl
  | .stringT => rfl
  | .slice _ => rfl
  | .arrayT _ _ => rfl
  | .mapT _ => rfl
  | .structT _ _ => rfl
  | .interfaceT => rfl
  | .timeT => rfl
  | .urlT => rfl
  | .ipT => rfl
  | .funcT => rfl

theorem deref_ptrWrap (k : Nat) (t : GoType) :
    deref (ptrWrap k t) = deref t := by
  induction k with
  | zero => rfl
  | succ k ih => show deref (ptrWrap k t) = deref t; exact ih

/-- C10: pointer indirection is transparent to schema synthesis — for every
type `t` and any number of pointer wrappings, `schemaFromType` on the wrapped
type agrees with `schemaFromType` on the fully dereferenced element type, at
every recursion budget. -/
theorem C10_pointer_transparency (fuel k : Nat) (t : GoType) :
    schemaFromType fuel (ptrWrap k t) = schemaFromType fuel t ∧
    schemaFromType fuel t = schemaFromType fuel (deref t) := by
  cases fuel with
  | zero => exact ⟨rfl, rfl⟩
  | succ n =>
    constructor
    · show schemaFromTypeDerefed _ _ (deref (ptrWrap k t)) =
        schemaFromTypeDerefed _ _ (deref t)
      rw [deref_ptrWrap]
    · show schemaFromTypeDerefed _ _ (deref t) =
        schemaFromTypeDerefed _ _ (deref (deref t))
      rw [deref_deref]

/-- C7: every unsigned integer kind synthesizes an integer schema with
minimum 0; widths up to 32 bits get format int32, 64-bit widths get int64,
and the unspecified-width `uint` takes the platform's native integer width. -/
theorem C7_unsigned_integers (fuel : Nat) :
    schemaFromType (fuel + 1) .uint8T = .ok (some (Schema.mk
      { type := "integer", format := "int32", minimum := some 0 }
      none none [])) ∧
    schemaFromType (fuel + 1) .uint16T = .ok (some (Schema.mk
      { type := "integer", format := "int32", minimum := some 0 }
      none none [])) ∧
    schemaFromType (fuel + 1) .uint32T = .ok (some (Schema.mk
      { type := "integer", format := "int32", minimum := some 0 }
      none none [])) ∧
    schemaFromType (fuel + 1) .uint64T = .ok (some (Schema.mk
      { type := "integer", format := "int64", minimum := some 0 }
      none none [])) ∧
    schemaFromType (fuel + 1) .uintT = .ok (some (Schema.mk
      { type := "integer", format := nativeIntFormat, minimum := some 0 }
      none none [])) ∧
    nativeIntFormat = (if uintSize = 32 then "int32" else "int64") :=
  ⟨rfl, rfl, rfl, rfl, rfl, rfl⟩

/-- C6: a fixed-size sequence yields an array schema whose MinItems and
MaxItems both equal the declared length; a variable-size sequence yields an
array schema with an items child schema and no such bounds. -/
theorem C6_sequence_bounds (fuel n : Nat) (e : GoType) (i : Schema)
    (h8 : isUint8Kind e = false)
    (hi : registrySchema fuel e = .ok (some i)) :
    schemaFromType (fuel + 1) (.arrayT n e) = .ok (some (Schema.mk
      { type := "array", minItems := some (n : Int),
        maxItems := some (n : Int) } (some i) none [])) ∧
    schemaFromType (fuel + 1) (.slice e) = .ok (some (Schema.mk
      { type := "array" } (some i) none [])) := by
  have hi' : schemaFromType fuel e = .ok (some i) := hi
  constructor
  · show schemaFromTypeDerefed _ _ (.arrayT n e) = _
    simp only [schemaFromTypeDerefed, h8, Bool.false_eq_true, if_false, hi',
      except_bind_ok]
    rfl
  · show schemaFromTypeDerefed _ _ (.slice e) = _
    simp only [schemaFromTypeDerefed, h8, Bool.false_eq_true, if_false, hi',
      except_bind_ok]
    rfl

theorem C6_sequence_bounds_witness :
    isUint8Kind .intT = false ∧
    registrySchema 1 .intT = .ok (some (Schema.mk
      { type := "integer", format := nativeIntFormat } none none [])) ∧
    schemaFromType 2 (.arrayT 3 .intT) = .ok (some (Schema.mk
      { type := "array", minItems := some 3, maxItems := some 3 }
      (some (Schema.mk { type := "integer", format := nativeIntFormat }
        none none [])) none [])) ∧
    schemaFromType 2 (.slice .intT) = .ok (some (Schema.mk
      { type := "array" }
      (some (Schema.mk { type := "integer", format := nativeIntFormat }
        none none [])) none [])) :=
  ⟨rfl, rfl,
    (C6_sequence_bounds 1 3 .intT _ rfl rfl).1,
    (C6_sequence_bounds 1 3 .intT _ rfl rfl).2⟩

/-- C5: a byte-sequence type synthesizes a string schema with contentEncoding
base64, and validation of such a schema flags exactly the strings that fail
to base64-decode with "expected string to be base64 encoded". -/
theorem C5_byte_sequences (fuel n : Nat) (mode : ValidateMode) (v : String) :
    schemaFromType (fuel + 1) (.slice .uint8T) = .ok (some base64Schema) ∧
    schemaFromType (fuel + 1) (.arrayT n .uint8T) = .ok (some base64Schema) ∧
    Validate (fuel + 1) base64Schema mode (.str v) =
      (if isBase64 v then [] else ["expected string to be base64 encoded"]) := by
  refine ⟨rfl, rfl, ?_⟩
  by_cases hb : isBase64 v
  · simp [Validate, base64Schema, Schema.core, hb]
  · simp [Validate, base64Schema, Schema.core, hb]

/-- C1: for an object schema with a required readOnly property,
client-to-server validation accepts any value for the property and does not
require its presence; server-to-client validation requires it — absence
yields exactly "expected required property NAME to be present" and presence
passes. -/
theorem C1_readOnly_modes (fuel : Nat) (name v : String) :
    Validate (fuel + 2) (oneFieldObjSchema name roPropSchema)
      .ModeWriteToServer (.obj [(name, .str v)]) = [] ∧
    Validate (fuel + 2) (oneFieldObjSchema name roPropSchema)
      .ModeWriteToServer (.obj []) = [] ∧
    Validate (fuel + 2) (oneFieldObjSchema name roPropSchema)
      .ModeReadFromServer (.obj []) = [requiredMsg name] ∧
    Validate (fuel + 2) (oneFieldObjSchema name roPropSchema)
      .ModeReadFromServer (.obj [(name, .str v)]) = [] := by
  refine ⟨?_, ?_, ?_, ?_⟩ <;>
    simp [Validate, oneFieldObjSchema, roPropSchema, Schema.core,
      Schema.properties, Schema.additionalProperties, Schema.items,
      lookupStr, requiredMsg,
      (show ("" : String) ≠ "base64" by decide)]

/-- C2: for an object schema with a writeOnly property, server-to-client
validation flags a present non-zero value with exactly
"write only property is non-zero", while a present zero value passes. -/
theorem C2_writeOnly_nonzero (fuel : Nat) (name v : String) (hv : v ≠ "") :
    Validate (fuel + 2) (oneFieldObjSchema name woPropSchema)
      .ModeReadFromServer (.obj [(name, .str v)]) =
      ["write only property is non-zero"] ∧
    Validate (fuel + 2) (oneFieldObjSchema name woPropSchema)
      .ModeReadFromServer (.obj [(name, .str "")]) = [] := by
  constructor <;>
    simp [Validate, oneFieldObjSchema, woPropSchema, Schema.core,
      Schema.properties, Schema.additionalProperties, Schema.items,
      lookupStr, isZero, hv,
      (show ("" : String) ≠ "base64" by decide)]

theorem C2_writeOnly_nonzero_witness :
    Validate 2 (oneFieldObjSchema "value" woPropSchema)
      .ModeReadFromServer (.obj [("value", .str "should not be set")]) =
      ["write only property is non-zero"] ∧
    Validate 2 (oneFieldObjSchema "value" woPropSchema)
      .ModeReadFromServer (.obj [("value", .str "")]) = [] :=
  C2_writeOnly_nonzero 0 "value" "should not be set" (by decide)

theorem lookup_upsert (m : List (String × String)) (k v key : String) :
    lookupStr (upsert m k v) key =
      if k = key then some v else lookupStr m key := by
  induction m with
  | nil => simp [upsert, lookupStr]
  | cons kv rest ih =>
    obtain ⟨k', v'⟩ := kv
    by_cases hk : k' = k
    · subst hk
      simp only [upsert, if_pos rfl, lookupStr]
      by_cases h2 : k' = key <;> simp [h2]
    · simp only [upsert, hk, if_false, lookupStr]
      by_cases h2 : k' = key
      · subst h2
        have hkey : ¬ (k = k') := fun hh => hk hh.symm
        simp [hkey]
      · simp [h2, ih]

theorem upsert_of_lookup_eq (m : List (String × String)) (k v : String)
    (h : lookupStr m k = some v) : upsert m k v = m := by
  induction m with
  | nil => simp [lookupStr] at h
  | cons kv rest ih =>
    obtain ⟨k', v'⟩ := kv
    by_cases hk : k' = k
    · subst hk
      simp [lookupStr] at h
      simp [upsert, h]
    · simp only [lookupStr, hk, if_false] at h
      simp [upsert, hk, ih h]

theorem lookup_fold_upsert (names : List String) (g : String → String)
    (m : List (String × String)) (key : String) :
    lookupStr (names.foldl (fun acc n => upsert acc n (g n)) m) key =
      if key ∈ names then some (g key) else lookupStr m key := by
  induction names generalizing m with
  | nil => simp
  | cons n rest ih =>
    simp only [List.foldl_cons]
    rw [ih]
    by_cases hk : key ∈ rest
    · simp [hk]
    · by_cases hn : n = key
      · subst hn
        simp [hk, lookup_upsert]
      · simp [hk, hn, lookup_upsert, Ne.symm hn]

theorem fold_upsert_fixed (names : List String) (g : String → String)
    (m : List (String × String))
    (h : ∀ n ∈ names, lookupStr m n = some (g n)) :
    names.foldl (fun acc n => upsert acc n (g n)) m = m := by
  induction names generalizing m with
  | nil => rfl
  | cons n rest ih =>
    simp only [List.foldl_cons]
    rw [upsert_of_lookup_eq m n (g n) (h n (by simp))]
    exact ih m (fun x hx => h x (by simp [hx]))

theorem match_opt_reuse {α β : Type} (o : Option α) (f : α → β) (d : β) :
    (match o with
      | some m => f m
      | none => (match o with | some m => f m | none => d)) =
    (match o with | some m => f m | none => d) := by
  cases o <;> rfl

theorem ite_reuse (c : Prop) [Decidable c] {β : Type} (x d : β) :
    (if c then x else (if c then x else d)) = (if c then x else d) := by
  split <;> rfl

/-- C9: PrecomputeMessages is idempotent — a schema it has finalized is a
fixed point, so every precomputed message field (including the
required-property message table) is identical after a second call. -/
theorem C9_precompute_idempotent (s s1 : Schema)
    (h : precomputeMessages s = .ok s1) : precomputeMessages s1 = .ok s1 := by
  obtain ⟨c, it, ap, pr⟩ := s
  dsimp only [precomputeMessages, Schema.core, Schema.items,
    Schema.additionalProperties, Schema.properties] at h
  split at h
  · exact Except.noConfusion h
  · next hguard =>
    injection h with h1
    subst h1
    dsimp only [precomputeMessages, Schema.core, Schema.items,
      Schema.additionalProperties, Schema.properties]
    rw [if_neg hguard]
    simp only [Except.ok.injEq, Schema.mk.injEq, SchemaCore.mk.injEq,
      and_true, true_and]
    repeat' apply And.intro
    all_goals try (split <;> rfl)
    exact fold_upsert_fixed c.required requiredMsg
      (c.required.foldl (fun m n => upsert m n (requiredMsg n)) c.msgRequired)
      (fun n hn => by rw [lookup_fold_upsert, if_pos hn])

theorem C9_precompute_idempotent_witness :
    precomputeMessages (Schema.mk
      { type := "integer", minimum := some 1, required := ["a"] }
      none none []) = .ok (Schema.mk
      { type := "integer", minimum := some 1, required := ["a"],
        msgEnum := "expected value to be one of \"\"",
        msgMinimum := "expected number >= 1",
        msgRequired := [("a", "expected required property a to be present")] }
      none none []) ∧
    precomputeMessages (Schema.mk
      { type := "integer", minimum := some 1, required := ["a"],
        msgEnum := "expected value to be one of \"\"",
        msgMinimum := "expected number >= 1",
        msgRequired := [("a", "expected required property a to be present")] }
      none none []) = .ok (Schema.mk
      { type := "integer", minimum := some 1, required := ["a"],
        msgEnum := "expected value to be one of \"\"",
        msgMinimum := "expected number >= 1",
        msgRequired := [("a", "expected required property a to be present")] }
      none none []) :=
  And.intro (by rfl)
    (C9_precompute_idempotent
      (Schema.mk
        { type := "integer", minimum := some 1, required := ["a"] }
        none none [])
      (Schema.mk
        { type := "integer", minimum := some 1, required := ["a"],
          msgEnum := "expected value to be one of \"\"",
          msgMinimum := "expected number >= 1",
          msgRequired :=
            [("a", "expected required property a to be present")] }
        none none [])
      (by rfl))

theorem except_map_ok {α β : Type} (f : α → β) (a : α) :
    Except.map f (Except.ok a : Except String α) = Except.ok (f a) := rfl

theorem except_map_error {α β : Type} (f : α → β) (e : String) :
    Except.map f (Except.error e : Except String α) = Except.error e := rfl

/-- C4: a malformed annotation value is a fatal construction fault — a
non-boolean boolean tag, a non-numeric numeric tag, a default value
unconvertible to the field's declared type, and a syntactically invalid
pattern each abort `schemaFromType` with an error, so no schema exists and
the defect can never surface as a per-request `Validate` violation. -/
theorem C4_construction_faults (fuel : Nat) (v w u p : String)
    (uv : JSONValue) :
    (v ≠ "" → v ≠ "true" → v ≠ "false" →
      schemaFromType (fuel + 2) (.structT "S"
        [GoField.mk "Value" true false .stringT
          [("json", "value"), ("readOnly", v)]]) =
        .error ("invalid bool tag 'readOnly' for field 'Value': " ++ v)) ∧
    (w ≠ "" → parseFloat w = none →
      schemaFromType (fuel + 2) (.structT "S"
        [GoField.mk "Value" true false .intT
          [("json", "value"), ("minimum", w)]]) =
        .error ("invalid float tag 'minimum' for field 'Value': " ++ w ++
          " (invalid syntax)")) ∧
    (u ≠ "" → parseJSONLit u = some uv → uv ≠ .null →
      convertValue .intT uv = none →
      schemaFromType (fuel + 2) (.structT "S"
        [GoField.mk "Value" true false .intT
          [("json", "value"), ("default", u)]]) =
        .error ("unable to convert " ++ jsonValueTypeName uv ++
          " to int: schema is invalid")) ∧
    (p ≠ "" → regexpValid p = false →
      schemaFromType (fuel + 2) (.structT "S"
        [GoField.mk "Value" true false .stringT
          [("json", "value"), ("pattern", p)]]) =
        .error ("error parsing regexp: " ++ p)) := by
  have hname : ¬ ((splitOnChar ',' "value").head?.getD "" = "-") := by decide
  refine ⟨?_, ?_, ?_, ?_⟩
  · intro h1 h2 h3
    simp [schemaFromType, schemaFromTypeDerefed, deref, getFields,
      splitFields, collectProps, serializedName, structTagGet, GoField.tag,
      GoField.name, GoField.typ, GoField.exported, GoField.anonymous,
      lookupStr, schemaFromFieldAux, jsonTag, boolTag, intTag, floatTag,
      precomputeMessages, Schema.core, except_bind_ok, except_bind_error,
      except_map_ok, except_map_error, pure, Except.pure, hname, h1, h2, h3]
  · intro h1 h2
    simp [schemaFromType, schemaFromTypeDerefed, deref, getFields,
      splitFields, collectProps, serializedName, structTagGet, GoField.tag,
      GoField.name, GoField.typ, GoField.exported, GoField.anonymous,
      lookupStr, schemaFromFieldAux, jsonTag, boolTag, intTag, floatTag,
      precomputeMessages, Schema.core, except_bind_ok, except_bind_error,
      except_map_ok, except_map_error, pure, Except.pure, hname, h1, h2]
  · intro h1 h2 h3 h4
    cases uv with
    | null => exact absurd rfl h3
    | num q => exact absurd h4 (by simp [convertValue, isNumericKind])
    | boolV b =>
      simp [schemaFromType, schemaFromTypeDerefed, deref, getFields,
        splitFields, collectProps, serializedName, structTagGet, GoField.tag,
        GoField.name, GoField.typ, GoField.exported, GoField.anonymous,
        lookupStr, schemaFromFieldAux, jsonTag, jsonTagValue, convertValue,
        isNumericKind, jsonValueTypeName, goTypeName, boolTag, intTag,
        floatTag, precomputeMessages, Schema.core, except_bind_ok,
        except_bind_error, except_map_ok, except_map_error,
        pure, Except.pure, hname, h1, h2]
    | str sv =>
      simp [schemaFromType, schemaFromTypeDerefed, deref, getFields,
        splitFields, collectProps, serializedName, structTagGet, GoField.tag,
        GoField.name, GoField.typ, GoField.exported, GoField.anonymous,
        lookupStr, schemaFromFieldAux, jsonTag, jsonTagValue, convertValue,
        isNumericKind, jsonValueTypeName, goTypeName, boolTag, intTag,
        floatTag, precomputeMessages, Schema.core, except_bind_ok,
        except_bind_error, except_map_ok, except_map_error,
        pure, Except.pure, hname, h1, h2]
    | arr xs =>
      simp [schemaFromType, schemaFromTypeDerefed, deref, getFields,
        splitFields, collectProps, serializedName, structTagGet, GoField.tag,
        GoField.name, GoField.typ, GoField.exported, GoField.anonymous,
        lookupStr, schemaFromFieldAux, jsonTag, jsonTagValue, convertValue,
        isNumericKind, jsonValueTypeName, goTypeName, boolTag, intTag,
        floatTag, precomputeMessages, Schema.core, except_bind_ok,
        except_bind_error, except_map_ok, except_map_error,
        pure, Except.pure, hname, h1, h2]
    | obj kvs =>
      simp [schemaFromType, schemaFromTypeDerefed, deref, getFields,
        splitFields, collectProps, serializedName, structTagGet, GoField.tag,
        GoField.name, GoField.typ, GoField.exported, GoField.anonymous,
        lookupStr, schemaFromFieldAux, jsonTag, jsonTagValue, convertValue,
        isNumericKind, jsonValueTypeName, goTypeName, boolTag, intTag,
        floatTag, precomputeMessages, Schema.core, except_bind_ok,
        except_bind_error, except_map_ok, except_map_error,
        pure, Except.pure, hname, h1, h2]
  · intro h1 h2
    simp [schemaFromType, schemaFromTypeDerefed, deref, getFields,
      splitFields, collectProps, serializedName, structTagGet, GoField.tag,
      GoField.name, GoField.typ, GoField.exported, GoField.anonymous,
      lookupStr, schemaFromFieldAux, jsonTag, boolTag, intTag, floatTag,
      precomputeMessages, Schema.core, except_bind_ok, except_bind_error,
      except_map_ok, except_map_error, pure, Except.pure, hname, h1, h2]

theorem C4_construction_faults_witness :
    schemaFromType 2 (.structT "S"
      [GoField.mk "Value" true false .stringT
        [("json", "value"), ("readOnly", "banana")]]) =
      .error "invalid bool tag 'readOnly' for field 'Value': banana" ∧
    schemaFromType 2 (.structT "S"
      [GoField.mk "Value" true false .intT
        [("json", "value"), ("minimum", "abc")]]) =
      .error
        "invalid float tag 'minimum' for field 'Value': abc (invalid syntax)" ∧
    schemaFromType 2 (.structT "S"
      [GoField.mk "Value" true false .intT
        [("json", "value"), ("default", "true")]]) =
      .error "unable to convert bool to int: schema is invalid" ∧
    schemaFromType 2 (.structT "S"
      [GoField.mk "Value" true false .stringT
        [("json", "value"), ("pattern", "^[a-")]]) =
      .error "error parsing regexp: ^[a-" := by
  obtain ⟨p1, p2, p3, p4⟩ :=
    C4_construction_faults 0 "banana" "abc" "true" "^[a-" (.boolV true)
  refine ⟨?_, ?_, ?_, ?_⟩
  · simpa using p1 (by decide) (by decide) (by decide)
  · simpa using p2 (by decide) (by decide)
  · simpa using p3 (by decide) (by rfl)
      (by intro h; exact JSONValue.noConfusion h) (by rfl)
  · simpa using p4 (by decide) (by decide)

theorem lookupStr_append {α : Type} (l1 l2 : List (String × α)) (k : String) :
    lookupStr (l1 ++ l2) k =
      match lookupStr l1 k with
      | some v => some v
      | none => lookupStr l2 k := by
  induction l1 with
  | nil => simp [lookupStr]
  | cons kv rest ih =>
    obtain ⟨k', v'⟩ := kv
    by_cases h : k' = k <;> simp [lookupStr, h, ih]

theorem lookupStr_isSome_iff {α : Type} (l : List (String × α)) (k : String) :
    (lookupStr l k).isSome ↔ k ∈ l.map Prod.fst := by
  induction l with
  | nil => simp [lookupStr]
  | cons kv rest ih =>
    obtain ⟨k', v'⟩ := kv
    by_cases h : k' = k
    · subst h
      simp [lookupStr]
    · simp [lookupStr, h, ih, show ¬ (k = k') from fun hh => h hh.symm]

theorem nodup_append_singleton {α : Type} (l : List α) (a : α)
    (h1 : l.Nodup) (h2 : a ∉ l) : (l ++ [a]).Nodup := by
  rw [List.nodup_append]
  refine ⟨h1, List.nodup_singleton a, ?_⟩
  intro x hx hxa
  have hxa' : x = a := by simpa using hxa
  exact h2 (hxa' ▸ hx)

theorem collectProps_invariant (g : GoField → Except String (Option Schema))
    (infos : List FieldInfo) (st st' : PropState)
    (h : collectProps g infos st = .ok st')
    (hreq : st.requiredMap = st.required)
    (hsub : ∀ n ∈ st.required, (lookupStr st.props n).isSome)
    (hnodupP : (st.props.map Prod.fst).Nodup)
    (hnodupR : st.required.Nodup)
    (hnames : st.propNames = st.props.map Prod.fst) :
    st'.requiredMap = st'.required ∧
    (∀ n ∈ st'.required, (lookupStr st'.props n).isSome) ∧
    (st'.props.map Prod.fst).Nodup ∧
    st'.required.Nodup ∧
    st'.propNames = st'.props.map Prod.fst := by
  induction infos generalizing st with
  | nil =>
    simp only [collectProps] at h
    injection h with h1
    subst h1
    exact ⟨hreq, hsub, hnodupP, hnodupR, hnames⟩
  | cons info rest ih =>
    simp only [collectProps] at h
    split at h
    · exact ih st h hreq hsub hnodupP hnodupR hnames
    · split at h
      · exact ih st h hreq hsub hnodupP hnodupR hnames
      · next hmiss =>
        cases hg : g info.field with
        | error e =>
          rw [hg, except_bind_error] at h
          exact Except.noConfusion h
        | ok fs? =>
          rw [hg, except_bind_ok] at h
          cases fs? with
          | none => exact ih st h hreq hsub hnodupP hnodupR hnames
          | some fs =>
            have hnone : lookupStr st.props (serializedName info.field) =
                none := by
              cases hl : lookupStr st.props (serializedName info.field) with
              | none => rfl
              | some x => rw [hl] at hmiss; simp at hmiss
            have hnotmem : serializedName info.field ∉
                st.props.map Prod.fst := by
              rw [← lookupStr_isSome_iff, hnone]
              simp
            have hnotreq : serializedName info.field ∉ st.required := by
              intro hmem
              have hs := hsub _ hmem
              rw [hnone] at hs
              simp at hs
            cases hom : omitEmpty info.field with
            | false =>
              simp only [hom, Bool.false_eq_true, if_false] at h
              apply ih _ h
              · simp [hreq]
              · intro n hn
                rw [lookupStr_append]
                rcases List.mem_append.mp hn with hn | hn
                · have hs := hsub n hn
                  cases hl : lookupStr st.props n with
                  | none => rw [hl] at hs; simp at hs
                  | some x => simp [hl]
                · have hn' : n = serializedName info.field := by
                    simpa using hn
                  subst hn'
                  rw [hnone]
                  simp [lookupStr]
              · simp only [List.map_append, List.map_cons, List.map_nil]
                exact nodup_append_singleton _ _ hnodupP hnotmem
              · exact nodup_append_singleton _ _ hnodupR hnotreq
              · simp [hnames]
            | true =>
              simp only [hom, if_true] at h
              apply ih _ h
              · simp [hreq]
              · intro n hn
                rw [lookupStr_append]
                have hs := hsub n hn
                cases hl : lookupStr st.props n with
                | none => rw [hl] at hs; simp at hs
                | some x => simp [hl]
              · simp only [List.map_append, List.map_cons, List.map_nil]
                exact nodup_append_singleton _ _ hnodupP hnotmem
              · exact hnodupR
              · simp [hnames]

theorem precompute_preserve (x s' : Schema)
    (h : precomputeMessages x = .ok s') :
    s'.properties = x.properties ∧ s'.core.required = x.core.required ∧
    s'.core.requiredMap = x.core.requiredMap ∧
    s'.core.propertyNames = x.core.propertyNames := by
  obtain ⟨c, it, ap, pr⟩ := x
  dsimp only [precomputeMessages, Schema.core, Schema.items,
    Schema.additionalProperties, Schema.properties] at h
  split at h
  · exact Except.noConfusion h
  · injection h with h1
    subst h1
    exact ⟨rfl, rfl, rfl, rfl⟩

/-- C8: for every schema produced by `schemaFromType`, every name in
Required has a corresponding property schema, and the required-name lookup
set holds exactly the names in Required. -/
theorem C8_required_subset (fuel : Nat) (t : GoType) (s : Schema)
    (h : schemaFromType fuel t = .ok (some s)) :
    (∀ n ∈ s.core.required, (lookupStr s.properties n).isSome) ∧
    (∀ n, n ∈ s.core.requiredMap ↔ n ∈ s.core.required) := by
  cases fuel with
  | zero => exact Except.noConfusion h
  | succ m =>
    have h' : schemaFromTypeDerefed (fun u => schemaFromType m u)
        (getFields (m + 1)) (deref t) = .ok (some s) := h
    cases hdt : deref t <;> rw [hdt] at h' <;> clear h hdt
    case boolT | intT | int8T | int16T | int32T | int64T
      | uintT | uint8T | uint16T | uint32T | uint64T
      | float32T | float64T | stringT | interfaceT
      | timeT | urlT | ipT =>
      simp only [schemaFromTypeDerefed, Except.ok.injEq, Option.some.injEq]
        at h'
      subst h'
      simp [Schema.core, Schema.properties, lookupStr]
    case funcT =>
      simp only [schemaFromTypeDerefed, Except.ok.injEq] at h'
      exact Option.noConfusion h'
    case ptr u =>
      simp only [schemaFromTypeDerefed, Except.ok.injEq] at h'
      exact Option.noConfusion h'
    case slice e =>
      by_cases h8 : isUint8Kind e
      · simp only [schemaFromTypeDerefed, h8, if_true, Except.ok.injEq,
          Option.some.injEq] at h'
        subst h'
        simp [Schema.core, Schema.properties, lookupStr]
      · simp only [schemaFromTypeDerefed, h8, Bool.false_eq_true, if_false]
          at h'
        cases hr : schemaFromType m e with
        | error err =>
          rw [hr, except_bind_error] at h'
          exact Except.noConfusion h'
        | ok item =>
          rw [hr, except_bind_ok] at h'
          have h'' : (some (Schema.mk { type := "array" } item none []) :
              Option Schema) = some s := by
            injection h'
          injection h'' with h''
          subst h''
          simp [Schema.core, Schema.properties, lookupStr]
    case arrayT n e =>
      by_cases h8 : isUint8Kind e
      · simp only [schemaFromTypeDerefed, h8, if_true, Except.ok.injEq,
          Option.some.injEq] at h'
        subst h'
        simp [Schema.core, Schema.properties, lookupStr]
      · simp only [schemaFromTypeDerefed, h8, Bool.false_eq_true, if_false]
          at h'
        cases hr : schemaFromType m e with
        | error err =>
          rw [hr, except_bind_error] at h'
          exact Except.noConfusion h'
        | ok item =>
          rw [hr, except_bind_ok] at h'
          have h'' : (some (Schema.mk
              { type := "array", minItems := some (n : Int),
                maxItems := some (n : Int) } item none []) :
              Option Schema) = some s := by
            injection h'
          injection h'' with h''
          subst h''
          simp [Schema.core, Schema.properties, lookupStr]
    case mapT e =>
      simp only [schemaFromTypeDerefed] at h'
      cases hr : schemaFromType m e with
      | error err =>
        rw [hr, except_bind_error] at h'
        exact Except.noConfusion h'
      | ok vs =>
        rw [hr, except_bind_ok] at h'
        have h'' : (some (Schema.mk { type := "object" } none
            (vs.map (fun sch => Sum.inr sch)) []) :
            Option Schema) = some s := by
          injection h'
        injection h'' with h''
        subst h''
        simp [Schema.core, Schema.properties, lookupStr]
    case structT nm fs =>
      simp only [schemaFromTypeDerefed] at h'
      cases hc : collectProps (schemaFromFieldAux
          (fun u => schemaFromType m u)) (getFields (m + 1) nm fs)
          (PropState.mk [] [] [] []) with
      | error err =>
        rw [hc, except_bind_error] at h'
        exact Except.noConfusion h'
      | ok st =>
        rw [hc, except_bind_ok] at h'
        cases hp : precomputeMessages (Schema.mk
            { type := "object", required := st.required,
              requiredMap := st.requiredMap, propertyNames := st.propNames }
            none (some (Sum.inl false)) st.props) with
        | error err =>
          rw [hp, except_bind_error] at h'
          exact Except.noConfusion h'
        | ok s0 =>
          rw [hp, except_bind_ok] at h'
          have h'' : (some s0 : Option Schema) = some s := by
            injection h'
          injection h'' with h''
          subst h''
          obtain ⟨e1, e2, e3, e4⟩ := precompute_preserve _ _ hp
          obtain ⟨i1, i2, i3, i4, i5⟩ := collectProps_invariant _ _ _ _ hc
            rfl (by simp) (by simp) (by simp) rfl
          rw [e1, e2, e3]
          dsimp only [Schema.core, Schema.properties]
          constructor
          · intro n hn
            exact i2 n hn
          · intro n
            rw [i1]

theorem C8_required_subset_witness :
    ("value" ∈ (Schema.mk
      { type := "object", required := ["value"], requiredMap := ["value"],
        propertyNames := ["value"],
        msgEnum := "expected value to be one of \"\"",
        msgRequired :=
          [("value", "expected required property value to be present")] }
      none (some (Sum.inl false))
      [("value", Schema.mk
        { type := "string", msgEnum := "expected value to be one of \"\"" }
        none none [])]).core.required ∧
    (lookupStr (Schema.mk
      { type := "object", required := ["value"], requiredMap := ["value"],
        propertyNames := ["value"],
        msgEnum := "expected value to be one of \"\"",
        msgRequired :=
          [("value", "expected required property value to be present")] }
      none (some (Sum.inl false))
      [("value", Schema.mk
        { type := "string", msgEnum := "expected value to be one of \"\"" }
        none none [])]).properties "value").isSome) ∧
    ("value" ∈ (Schema.mk
      { type := "object", required := ["value"], requiredMap := ["value"],
        propertyNames := ["value"],
        msgEnum := "expected value to be one of \"\"",
        msgRequired :=
          [("value", "expected required property value to be present")] }
      none (some (Sum.inl false))
      [("value", Schema.mk
        { type := "string", msgEnum := "expected value to be one of \"\"" }
        none none [])]).core.requiredMap ↔
     "value" ∈ (Schema.mk
      { type := "object", required := ["value"], requiredMap := ["value"],
        propertyNames := ["value"],
        msgEnum := "expected value to be one of \"\"",
        msgRequired :=
          [("value", "expected required property value to be present")] }
      none (some (Sum.inl false))
      [("value", Schema.mk
        { type := "string", msgEnum := "expected value to be one of \"\"" }
        none none [])]).core.required) := by
  have hmem : "value" ∈ (["value"] : List String) := by simp
  refine ⟨⟨hmem, ?_⟩, ?_⟩
  · exact (C8_required_subset 2
      (.structT "S" [GoField.mk "Value" true false .stringT
        [("json", "value")]]) _ (by rfl)).1 "value" hmem
  · exact (C8_required_subset 2
      (.structT "S" [GoField.mk "Value" true false .stringT
        [("json", "value")]]) _ (by rfl)).2 "value"

theorem splitFields_eq (fs : List GoField) :
    splitFields fs =
      (fs.filter (fun f => f.exported && !f.anonymous),
       fs.filter (fun f => f.exported && f.anonymous)) := by
  induction fs with
  | nil => rfl
  | cons f rest ih =>
    simp only [splitFields, ih, List.filter_cons]
    cases he : f.exported <;> cases ha : f.anonymous <;> simp [he, ha]

theorem collectProps_lookup (g : GoField → Except String (Option Schema))
    (name : String) (hname : name ≠ "-")
    (infos : List FieldInfo) (st st' : PropState)
    (h : collectProps g infos st = .ok st') :
    lookupStr st'.props name =
      match lookupStr st.props name with
      | some x => some x
      | none => firstWin g name infos := by
  induction infos generalizing st with
  | nil =>
    simp only [collectProps] at h
    injection h with h1
    subst h1
    cases hl : lookupStr st.props name <;> simp [firstWin, hl]
  | cons info rest ih =>
    simp only [collectProps] at h
    split at h
    · next hdash =>
      have hne : serializedName info.field ≠ name := by
        rw [hdash]
        exact fun hh => hname hh.symm
      rw [ih st h]
      cases hl : lookupStr st.props name <;> simp [firstWin, hne, hl]
    · split at h
      · next hsome =>
        rw [ih st h]
        by_cases hs : serializedName info.field = name
        · subst hs
          cases hl : lookupStr st.props (serializedName info.field) with
          | none => rw [hl] at hsome; simp at hsome
          | some x => simp [hl]
        · cases hl : lookupStr st.props name <;> simp [firstWin, hs, hl]
      · next hmiss =>
        have hnone0 : lookupStr st.props (serializedName info.field) =
            none := by
          cases hl : lookupStr st.props (serializedName info.field) with
          | none => rfl
          | some x => rw [hl] at hmiss; simp at hmiss
        cases hg : g info.field with
        | error e =>
          rw [hg, except_bind_error] at h
          exact Except.noConfusion h
        | ok fs? =>
          rw [hg, except_bind_ok] at h
          cases fs? with
          | none =>
            rw [ih st h]
            by_cases hs : serializedName info.field = name
            · subst hs
              rw [hnone0]
              simp [firstWin, hg]
            · cases hl : lookupStr st.props name <;>
                simp [firstWin, hs, hl]
          | some fs =>
            rw [ih _ h]
            by_cases hs : serializedName info.field = name
            · subst hs
              rw [lookupStr_append, hnone0]
              simp [firstWin, hg, lookupStr]
            · rw [lookupStr_append]
              cases hl : lookupStr st.props name <;>
                simp [firstWin, hs, hl, lookupStr]

/-- C3: field resolution collects the direct named exported fields first and
the breadth-first expansion of embedded fields after; when two fields
resolve to the same serialized name, the first occurrence (the outermost
declaration, first in resolution order with a non-nil field schema) becomes
the property's schema, and every later same-named field is discarded from
both Properties and Required (property keys and required names are free of
duplicates). -/
theorem C3_field_resolution (fuel : Nat) (nm : String) (fs : List GoField)
    (s : Schema) (name : String)
    (h : schemaFromType (fuel + 1) (.structT nm fs) = .ok (some s))
    (hname : name ≠ "-") :
    (getFields (fuel + 1) nm fs =
      ((fs.filter (fun f => f.exported && !f.anonymous)).map
        (fun f => FieldInfo.mk nm f)) ++
      ((fs.filter (fun f => f.exported && f.anonymous)).flatMap (fun f =>
        match deref f.typ with
        | .structT nm2 gs => getFields fuel nm2 gs
        | _ => []))) ∧
    lookupStr s.properties name =
      firstWin (schemaFromField fuel) name (getFields (fuel + 1) nm fs) ∧
    (s.properties.map Prod.fst).Nodup ∧
    s.core.required.Nodup := by
  have hsplit : getFields (fuel + 1) nm fs =
      ((fs.filter (fun f => f.exported && !f.anonymous)).map
        (fun f => FieldInfo.mk nm f)) ++
      ((fs.filter (fun f => f.exported && f.anonymous)).flatMap (fun f =>
        match deref f.typ with
        | .structT nm2 gs => getFields fuel nm2 gs
        | _ => [])) := by
    simp only [getFields, splitFields_eq]
  refine ⟨hsplit, ?_⟩
  have h' : schemaFromTypeDerefed (fun u => schemaFromType fuel u)
      (getFields (fuel + 1)) (.structT nm fs) = .ok (some s) := h
  simp only [schemaFromTypeDerefed] at h'
  cases hc : collectProps (schemaFromFieldAux
      (fun u => schemaFromType fuel u)) (getFields (fuel + 1) nm fs)
      (PropState.mk [] [] [] []) with
  | error err =>
    rw [hc, except_bind_error] at h'
    exact Except.noConfusion h'
  | ok st =>
    rw [hc, except_bind_ok] at h'
    cases hp : precomputeMessages (Schema.mk
        { type := "object", required := st.required,
          requiredMap := st.requiredMap, propertyNames := st.propNames }
        none (some (Sum.inl false)) st.props) with
    | error err =>
      rw [hp, except_bind_error] at h'
      exact Except.noConfusion h'
    | ok s0 =>
      rw [hp, except_bind_ok] at h'
      have h'' : (some s0 : Option Schema) = some s := by injection h'
      injection h'' with h''
      subst h''
      obtain ⟨e1, e2, e3, e4⟩ := precompute_preserve _ _ hp
      obtain ⟨i1, i2, i3, i4, i5⟩ := collectProps_invariant _ _ _ _ hc
        rfl (by simp) (by simp) (by simp) rfl
      refine ⟨?_, ?_, ?_⟩
      · rw [e1]
        dsimp only [Schema.properties]
        have := collectProps_lookup _ name hname _ _ _ hc
        simp only [lookupStr] at this
        rw [this]
        rfl
      · rw [e1]
        dsimp only [Schema.properties]
        exact i3
      · rw [e2]
        dsimp only [Schema.core]
        exact i4

theorem C3_field_resolution_witness :
    lookupStr (Schema.mk
      { type := "object", required := ["value"], requiredMap := ["value"],
        propertyNames := ["value"],
        msgEnum := "expected value to be one of \"\"",
        msgRequired :=
          [("value", "expected required property value to be present")] }
      none (some (Sum.inl false))
      [("value", Schema.mk
        { type := "string", msgEnum := "expected value to be one of \"\"" }
        none none [])]).properties "value" =
      firstWin (schemaFromField 2) "value" (getFields 3 "Outer"
        [GoField.mk "Value" true false .stringT [("json", "value")],
         GoField.mk "Inner" true true (.structT "Inner"
           [GoField.mk "Value" true false .intT [("json", "value")]]) []]) ∧
    ((Schema.mk
      { type := "object", required := ["value"], requiredMap := ["value"],
        propertyNames := ["value"],
        msgEnum := "expected value to be one of \"\"",
        msgRequired :=
          [("value", "expected required property value to be present")] }
      none (some (Sum.inl false))
      [("value", Schema.mk
        { type := "string", msgEnum := "expected value to be one of \"\"" }
        none none [])]).properties.map Prod.fst).Nodup ∧
    (Schema.mk
      { type := "object", required := ["value"], requiredMap := ["value"],
        propertyNames := ["value"],
        msgEnum := "expected value to be one of \"\"",
        msgRequired :=
          [("value", "expected required property value to be present")] }
      none (some (Sum.inl false))
      [("value", Schema.mk
        { type := "string", msgEnum := "expected value to be one of \"\"" }
        none none [])]).core.required.Nodup :=
  (C3_field_resolution 2 "Outer"
    [GoField.mk "Value" true false .stringT [("json", "value")],
     GoField.mk "Inner" true true (.structT "Inner"
       [GoField.mk "Value" true false .intT [("json", "value")]]) []]
    (Schema.mk
      { type := "object", required := ["value"], requiredMap := ["value"],
        propertyNames := ["value"],
        msgEnum := "expected value to be one of \"\"",
        msgRequired :=
          [("value", "expected required property value to be present")] }
      none (some (Sum.inl false))
      [("value", Schema.mk
        { type := "string", msgEnum := "expected value to be one of \"\"" }
        none none [])])
    "value" (by rfl) (by decide)).2
